import Mathlib

/-!
Verification of `src/advanced-vector/vector.h` (templates `RawMemory<T>` and
`Vector<T>`).

Shallow embedding. A `Vector<T>` owns a `RawMemory<T>` buffer of `capacity_`
slots, of which the first `size_` hold constructed elements and the rest are
uninitialized raw storage. We model the constructed prefix as a Lean list
`elems` (so `size_ = elems.length`) together with the capacity `cap`; the
uninitialized slots `[size_, capacity_)` carry no value and therefore have no
representation beyond the capacity count. Iterators (`T *`) are modelled as
slot offsets from `begin()`.

Exception behaviour of the growth path of `Vector::Emplace` (claim about the
strong exception guarantee) is modelled separately by an instrumented
step-by-step embedding that counts `construct`/`destroy` calls per slot of the
new buffer.
-/

namespace AdvVector

/-- Model of `RawMemory<T>::Allocate(size_t n)`:
`return n != 0 ? static_cast<T *>(operator new(n * sizeof(T))) : nullptr;`.
The surrounding allocator (`operator new`) is an oracle mapping a requested
byte count to `some` address or `none` (allocation failure, i.e. the thrown
`std::bad_alloc`).  The byte count is computed in `size_t` arithmetic, i.e.
modulo `2 ^ 64`.  The second component of the result records the byte counts
of the allocation requests actually issued. -/
def Allocate (elemSize : Nat) (alloc : Nat → Option Nat) (n : Nat) :
    Except Unit (Option Nat) × List Nat :=
  if n ≠ 0 then
    match alloc (n * elemSize % 2 ^ 64) with
    | some p => (Except.ok (some p), [n * elemSize % 2 ^ 64])
    | none => (Except.error (), [n * elemSize % 2 ^ 64])
  else
    (Except.ok none, [])

/-- Model of `Vector<T>`: `elems` is the list of constructed elements held in
slots `[0, size_)` of `data_` (so `Size()` is `elems.length`), `cap` is
`data_.Capacity()`. -/
structure Vec (α : Type) where
  elems : List α
  cap : Nat
deriving Repr, DecidableEq

namespace Vec

/-- `Vector::Size()`. -/
def size (v : Vec α) : Nat := v.elems.length

/-- `Vector::Capacity()`. -/
def capacity (v : Vec α) : Nat := v.cap

/-- The class invariant of `Vector<T>`: the number of constructed elements
never exceeds the capacity of the owned buffer.  (That slots `[0, size_)`
hold constructed elements and slots `[size_, capacity_)` are uninitialized is
definitional in this embedding: `elems` lists exactly the constructed
prefix.) -/
def WF (v : Vec α) : Prop := v.elems.length ≤ v.cap

instance (v : Vec α) : Decidable v.WF := by unfold WF; infer_instance

/-- `Vector()`: default construction, empty with capacity 0. -/
def mkEmpty : Vec α := ⟨[], 0⟩

/-- `Vector(size_t size)`: allocates `size` slots and value-constructs
`size` elements (`std::uninitialized_value_construct_n`). -/
def mkSized [Inhabited α] (n : Nat) : Vec α := ⟨List.replicate n default, n⟩

/-- `Vector(const Vector &other)`: allocates `other.size_` slots and
copy-constructs the `other.size_` elements. -/
def copyCtor (other : Vec α) : Vec α := ⟨other.elems, other.elems.length⟩

/-- `Vector(Vector &&other)`: steals the buffer, source keeps no buffer and
size 0.  Returns `(constructed, moved-from source)`. -/
def moveCtor (other : Vec α) : Vec α × Vec α :=
  (⟨other.elems, other.cap⟩, ⟨[], 0⟩)

/-- `Vector::Swap(Vector &other)`: `data_.Swap(other.data_)` exchanges buffer
and capacity, `std::swap(size_, other.size_)` exchanges the sizes; the two
states are exchanged wholesale.  Returns `(*this, other)` after the call. -/
def swapOp (a b : Vec α) : Vec α × Vec α :=
  (⟨b.elems, b.cap⟩, ⟨a.elems, a.cap⟩)

/-- `Vector::operator=(Vector &&rhs)`: `Swap(rhs); return *this;`.
Returns `(*this, rhs)` after the call. -/
def moveAssign (a rhs : Vec α) : Vec α × Vec α := swapOp a rhs

/-- `Vector::operator=(const Vector &rhs)`, branch for `this != &rhs`:
if `rhs.size_ > data_.Capacity()` build `Vector(rhs)` and swap it into
`*this`; otherwise reuse the existing buffer: copy-assign the common prefix
`[0, min(size_, rhs.size_))`, then either copy-construct the extra trailing
elements of `rhs` (`std::uninitialized_copy_n`) or destroy the extra trailing
elements of `*this` (`std::destroy_n`), and set `size_ = rhs.size_`. -/
def copyAssign (a rhs : Vec α) : Vec α :=
  if rhs.elems.length > a.cap then
    copyCtor rhs
  else
    let minSize := min a.elems.length rhs.elems.length
    let common := rhs.elems.take minSize
    let newElems :=
      if rhs.elems.length > a.elems.length then
        common ++ rhs.elems.drop a.elems.length
      else
        common
    ⟨newElems, a.cap⟩

/-- `Vector::Reserve(size_t new_capacity)`: no-op when
`new_capacity <= data_.Capacity()`; otherwise allocate `new_capacity` slots,
relocate all `size_` elements into them (move- or copy-construction; either
way the same element values end up in slots `[0, size_)` of the new buffer),
destroy the old elements and swap buffers. -/
def reserve (v : Vec α) (new_capacity : Nat) : Vec α :=
  if new_capacity ≤ v.cap then v
  else ⟨v.elems, new_capacity⟩

/-- `Vector::Resize(size_t new_size)`: when shrinking (`size_ >= new_size`)
destroy the trailing `size_ - new_size` elements; when growing, `Reserve`
then default-construct the `new_size - size_` new trailing elements
(`std::uninitialized_default_construct_n`). -/
def resize [Inhabited α] (v : Vec α) (new_size : Nat) : Vec α :=
  if v.elems.length ≥ new_size then
    ⟨v.elems.take new_size, v.cap⟩
  else
    ⟨(v.reserve new_size).elems ++
        List.replicate (new_size - (v.reserve new_size).elems.length) default,
      (v.reserve new_size).cap⟩

/-- `Vector::PopBack()`: destroys the last element (`std::destroy_at`) and
decrements `size_`.  Precondition `size_ > 0`. -/
def popBack (v : Vec α) : Vec α := ⟨v.elems.dropLast, v.cap⟩

/-- Value effect of the in-place insertion path of `Vector::Emplace`
(`size_ < Capacity()`, `pos != end()`): after
`new (end()) T(std::move(data_[size_ - 1]))` the trailing slot holds the old
last element, i.e. the slot sequence is `elems ++ [elems[len-1]]`, which as
a list is `elems.take (off+1) ++ elems.drop off` once
`std::move_backward(begin() + off, end() - 1, begin() + size_)` has shifted
`[off, len-1)` one slot right (move-assignment copies values in this model);
finally `data_[off] = std::move(tmp)` overwrites slot `off` with the new
value. -/
def emplaceShift (elems : List α) (off : Nat) (x : α) : List α :=
  (elems.take (off + 1) ++ elems.drop off).set off x

/-- `Vector::Emplace(pos, args...)` with `off = pos - begin()`
(precondition `off <= size_`).  At capacity: allocate
`max(1, Capacity() * 2)` slots, construct the new element at slot `off` of
the new buffer, relocate the old elements `[0, off)` to slots `[0, off)` and
`[off, size_)` to slots `[off+1, size_+1)`, destroy the old elements and swap
buffers.  Below capacity: construct at `end()` when `off = size_`, otherwise
run the shift path (`emplaceShift`).  Returns the new state together with
the offset of the returned iterator, `begin() + off`. -/
def emplace (v : Vec α) (off : Nat) (x : α) : Vec α × Nat :=
  if v.elems.length = v.cap then
    let new_capacity := max 1 (v.cap * 2)
    (⟨v.elems.take off ++ x :: v.elems.drop off, new_capacity⟩, off)
  else
    if off = v.elems.length then
      (⟨v.elems ++ [x], v.cap⟩, off)
    else
      (⟨emplaceShift v.elems off x, v.cap⟩, off)

/-- `Vector::EmplaceBack(args...)`: `return *Emplace(end(), ...)`.  Returns
the new state together with the offset of the element the returned reference
designates. -/
def emplaceBack (v : Vec α) (x : α) : Vec α × Nat :=
  emplace v v.elems.length x

/-- `Vector::PushBack(value)` (both overloads): `EmplaceBack(value)`,
result discarded. -/
def pushBack (v : Vec α) (x : α) : Vec α :=
  (emplaceBack v x).1

/-- `Vector::Erase(pos)` with `off = pos - begin()` (precondition
`off < size_`): `std::move` shifts `[off+1, size_)` one slot left,
`std::destroy_at` destroys the now-moved-from last slot, `size_` decrements.
Returns the new state and the offset of the returned iterator
`data_.GetAddress() + off`. -/
def erase (v : Vec α) (off : Nat) : Vec α × Nat :=
  (⟨v.elems.take off ++ v.elems.drop (off + 1), v.cap⟩, off)

/-- `Vector::Insert(pos, value)` (both overloads): `Emplace(pos, value)`. -/
def insert (v : Vec α) (off : Nat) (x : α) : Vec α × Nat :=
  emplace v off x

end Vec

/-- Compile-time relocation choice shared by `Vector::Reserve` and
`Vector::Emplace`:
`if constexpr (std::is_nothrow_move_constructible_v<T> || !std::is_copy_constructible_v<T>)`
selects `std::uninitialized_move_n`, the `else` branch uses
`std::uninitialized_copy_n`. -/
def relocUsesMove (nothrowMove copyConstructible : Bool) : Bool :=
  nothrowMove || !copyConstructible

/-! Instrumented embedding of the growth branch of `Vector::Emplace`
(`size_ == Capacity()`), used to check the exception-safety claim.  We track,
for every slot of the new buffer, how many times an object was constructed in
it and how many times one was destroyed in it. -/

/-- Per-slot instrumentation of the new buffer: `cons`/`des` hold the number
of construct/destroy calls issued on each slot. -/
structure BufCounts where
  cons : List Nat
  des : List Nat
deriving Repr, DecidableEq

/-- Record one object construction in slot `s` (`std::construct_at`, or one
step of an `std::uninitialized_..._n` relocation). -/
def constructAt (b : BufCounts) (s : Nat) : BufCounts :=
  { b with cons := b.cons.set s (b.cons.getD s 0 + 1) }

/-- Record one destructor call on slot `s` (`std::destroy_at`). -/
def destroyAt (b : BufCounts) (s : Nat) : BufCounts :=
  { b with des := b.des.set s (b.des.getD s 0 + 1) }

/-- Record `std::destroy_n(buf + first, n)`: destructor calls on slots
`[first, first + n)`. -/
def destroyN (b : BufCounts) (first n : Nat) : BufCounts :=
  (List.range n).foldl (fun acc j => destroyAt acc (first + j)) b

/-- Model of one `std::uninitialized_copy_n` / `std::uninitialized_move_n`
relocation of the `n` source elements `[srcFirst, srcFirst + n)` into the new
buffer slots `[dstFirst, dstFirst + n)`.  `throwsAt = some i` means the
element operation (copy/move construction) applied to source element `i`
throws.  Per the standard library contract, on a throw the helper destroys
the objects it has already constructed and lets the exception propagate:
`Except.error` carries the instrumented state with the exception in flight.
`k` counts the elements already relocated; the last argument is the number of
elements still to relocate. -/
def uninitCopyGo (throwsAt : Option Nat) (srcFirst dstFirst : Nat)
    (b : BufCounts) (k : Nat) : Nat → Except BufCounts BufCounts
  | 0 => Except.ok b
  | Nat.succ m =>
    if throwsAt = some (srcFirst + k) then
      Except.error (destroyN b dstFirst k)
    else
      uninitCopyGo throwsAt srcFirst dstFirst
        (constructAt b (dstFirst + k)) (k + 1) m

/-- `std::uninitialized_copy_n(src + srcFirst, n, new_buf + dstFirst)` (or
the `_move_n` variant): relocates `n` elements, unwinding its own partial
work on a throw. -/
def uninitCopyN (throwsAt : Option Nat) (srcFirst dstFirst n : Nat)
    (b : BufCounts) : Except BufCounts BufCounts :=
  uninitCopyGo throwsAt srcFirst dstFirst b 0 n

/-- Instrumented embedding of the growth branch of `Vector::Emplace`, step
for step from the source.  `size` is the old `size_` (equal to the old
capacity), `off` the insertion offset, `throwsAt` the index of the source
element whose relocation throws (the thrown exception is assumed to derive
from `std::exception`, so that the `catch (const std::exception &)` clauses
match it; construction of the new element itself does not throw — the claim
concerns the relocation phase).  Result: `.ok counts` when the branch runs to
completion (the old elements are then destroyed and the buffers swapped —
those calls touch the old buffer, not the new one, so they do not appear in
the counts), `.error counts` when the exception propagates to the caller. -/
def emplaceGrow (size off : Nat) (throwsAt : Option Nat) :
    Except BufCounts BufCounts :=
  let b0 : BufCounts :=
    ⟨List.replicate (size + 1) 0, List.replicate (size + 1) 0⟩
  -- T *new_element_ptr = new_data.GetAddress() + offset;
  -- std::construct_at(new_element_ptr, std::forward<Args>(args)...);
  let b1 := constructAt b0 off
  match
    ( -- outer try: relocate the elements before the insertion position,
     -- std::uninitialized_..._n(begin(), offset, new_data.GetAddress())
     match uninitCopyN throwsAt 0 0 off b1 with
     | Except.error b => Except.error b
     | Except.ok b2 =>
       -- inner try: relocate the elements from the insertion position on,
       -- std::uninitialized_..._n(begin() + offset, size_ - offset,
       --                          new_data.GetAddress() + offset + 1)
       match uninitCopyN throwsAt off (off + 1) (size - off) b2 with
       | Except.ok b3 => Except.ok b3
       | Except.error b3 =>
         -- catch (const std::exception &e) {
         --   std::destroy_n(new_data.GetAddress(), offset + 1); throw; }
         Except.error (destroyN b3 0 (off + 1)))
  with
  | Except.ok b4 => Except.ok b4
  | Except.error b4 =>
    -- catch (const std::exception &e) {
    --   std::destroy_at(new_data.GetAddress() + offset); throw; }
    -- this clause also catches the exception rethrown by the inner handler
    Except.error (destroyAt b4 off)

/-! Helper lemmas shared by the claim theorems. -/

/-- The shift path of `Emplace` inserts the new value at offset `off`:
for `off < l.length` it turns `l` into `l.take off ++ x :: l.drop off`. -/
theorem Vec.emplaceShift_eq (x : α) :
    ∀ (off : Nat) (l : List α), off < l.length →
      Vec.emplaceShift l off x = l.take off ++ x :: l.drop off := by
  intro off
  induction off with
  | zero =>
    intro l hl
    match l with
    | a :: l => simp [Vec.emplaceShift]
  | succ off ih =>
    intro l hl
    match l with
    | a :: l =>
      have h1 : off < l.length := by simpa using hl
      simp only [Vec.emplaceShift, List.take_succ_cons, List.drop_succ_cons,
        List.cons_append, List.set_cons_succ, List.take, List.drop]
      exact congrArg (a :: ·) (ih l h1)

/-- Element sequence after `Emplace` at offset `off ≤ size_`: the new value
is inserted at `off`, all other elements keep their relative order. -/
theorem Vec.emplace_elems (v : Vec α) (off : Nat) (x : α)
    (hoff : off ≤ v.elems.length) :
    (Vec.emplace v off x).1.elems = v.elems.take off ++ x :: v.elems.drop off := by
  unfold Vec.emplace
  by_cases hfull : v.elems.length = v.cap
  · simp [hfull]
  · by_cases hend : off = v.elems.length
    · subst hend
      simp [hfull]
    · have hlt : off < v.elems.length := lt_of_le_of_ne hoff hend
      simp [hfull, hend, Vec.emplaceShift_eq x off v.elems hlt]

/-- `Emplace` grows the element count by exactly one. -/
theorem Vec.emplace_length (v : Vec α) (off : Nat) (x : α)
    (hoff : off ≤ v.elems.length) :
    (Vec.emplace v off x).1.elems.length = v.elems.length + 1 := by
  rw [Vec.emplace_elems v off x hoff]
  simp
  omega

/-- Capacity after `Emplace`: doubled (from a base of 1) exactly when the
vector was full, unchanged otherwise. -/
theorem Vec.emplace_cap (v : Vec α) (off : Nat) (x : α) :
    (Vec.emplace v off x).1.cap =
      if v.elems.length = v.cap then max 1 (v.cap * 2) else v.cap := by
  unfold Vec.emplace
  by_cases hfull : v.elems.length = v.cap
  · simp [hfull]
  · by_cases hend : off = v.elems.length <;> simp [hfull, hend]

/-- `Emplace` returns the iterator `begin() + off`. -/
theorem Vec.emplace_snd (v : Vec α) (off : Nat) (x : α) :
    (Vec.emplace v off x).2 = off := by
  unfold Vec.emplace
  by_cases hfull : v.elems.length = v.cap
  · simp [hfull]
  · by_cases hend : off = v.elems.length <;> simp [hfull, hend]

/-! Claim theorems. -/

/-- C1: the growth branch of `Emplace`, run at the failing input — a vector
of size 1 at capacity 1, insertion at offset 0, where relocating the single
suffix element (source element 0) throws an exception derived from
`std::exception` — constructs the new element in new-buffer slot 0 exactly
once (`cons = [1, 0]`) but destroys it twice (`des = [2, 0]`): the inner
handler runs `destroy_n(new_data.GetAddress(), 1)` and rethrows, and the
rethrown exception is caught again by the outer handler, which runs
`destroy_at(new_data.GetAddress() + 0)` on the same, already destroyed
object.  The exception then propagates (`Except.error`).  The claim that
every placed element is destroyed exactly once fails on this path. -/
theorem C1_suffix_throw_double_destroy :
    AdvVector.emplaceGrow 1 0 (some 0) =
      Except.error { cons := [1, 0], des := [2, 0] } := by
  rfl

/-- C2 counterexample: with elements of size 2 and requested capacity
`2 ^ 63`, the product `n * sizeof(T)` equals `2 ^ 64` and thus overflows
`size_t`, so the claim demands an allocation failure; but `Allocate` computes
the byte count modulo `2 ^ 64`, obtaining 0, and the underlying allocator
(here: grants every request below `2 ^ 40` bytes) satisfies the wrapped
request, so creation succeeds. -/
theorem C2_overflow_not_detected :
    2 ^ 64 ≤ 2 ^ 63 * 2 ∧
    (AdvVector.Allocate 2 (fun sz => if sz < 2 ^ 40 then some 1 else none)
        (2 ^ 63)).1 = Except.ok (some 1) := by
  exact ⟨by norm_num, rfl⟩

/-- C2 (amended): `Allocate(0)` yields a null block without issuing any
allocation request; for `n ≠ 0` exactly one request of
`n * sizeof(T) mod 2 ^ 64` bytes is issued and creation fails iff the
underlying allocation fails — no overflow check is performed. -/
theorem C2_allocate_behavior (elemSize : Nat) (alloc : Nat → Option Nat)
    (n : Nat) (h : n ≠ 0) :
    AdvVector.Allocate elemSize alloc 0 = (Except.ok none, []) ∧
    ((AdvVector.Allocate elemSize alloc n).1 = Except.error () ↔
      alloc (n * elemSize % 2 ^ 64) = none) ∧
    (AdvVector.Allocate elemSize alloc n).2 = [n * elemSize % 2 ^ 64] := by
  refine ⟨by simp [AdvVector.Allocate], ?_, ?_⟩ <;>
    · unfold AdvVector.Allocate
      rw [if_pos h]
      split <;> simp_all

/-- Witness for C2 at element size 4, an allocator that always fails, and
n = 3. -/
theorem C2_allocate_behavior_witness :
    AdvVector.Allocate 4 (fun _ => (none : Option Nat)) 0 =
      (Except.ok none, []) ∧
    ((AdvVector.Allocate 4 (fun _ => (none : Option Nat)) 3).1 =
        Except.error () ↔
      (fun _ => (none : Option Nat)) (3 * 4 % 2 ^ 64) = none) ∧
    (AdvVector.Allocate 4 (fun _ => (none : Option Nat)) 3).2 =
      [3 * 4 % 2 ^ 64] :=
  C2_allocate_behavior 4 (fun _ => none) 3 (by decide)

/-- C3: `PushBack` and `EmplaceBack` are exactly `Emplace(end(), args)`
(`end()` is offset `size_`); an insertion performed when
`Size() == Capacity()` sets the capacity to `max(1, 2 * Capacity())`; and
appending 0..8 elements to an initially empty vector yields the capacities
0, 1, 2, 4, 4, 8, 8, 8, 8 — the observed values form the sequence
0, 1, 2, 4, 8, …. -/
theorem C3_pushBack_growth (v : AdvVector.Vec Nat) (off : Nat) (x : Nat)
    (h : v.elems.length = v.cap) :
    (∀ (α : Type) (w : AdvVector.Vec α) (y : α),
        AdvVector.Vec.pushBack w y =
          (AdvVector.Vec.emplace w w.elems.length y).1 ∧
        AdvVector.Vec.emplaceBack w y =
          AdvVector.Vec.emplace w w.elems.length y) ∧
    (AdvVector.Vec.emplace v off x).1.cap = max 1 (2 * v.cap) ∧
    ((List.range 9).map fun k =>
        ((List.range k).foldl (fun w i => AdvVector.Vec.pushBack w i)
          (AdvVector.Vec.mkEmpty : AdvVector.Vec Nat)).cap) =
      [0, 1, 2, 4, 4, 8, 8, 8, 8] := by
  refine ⟨fun α w y => ⟨rfl, rfl⟩, ?_, by decide⟩
  rw [AdvVector.Vec.emplace_cap, if_pos h, Nat.mul_comm v.cap 2]

/-- Witness for C3 at the full one-element vector `⟨[5], 1⟩`, offset 0,
value 7. -/
theorem C3_pushBack_growth_witness :
    (AdvVector.Vec.emplace (AdvVector.Vec.mk [5] 1) 0 7).1.cap =
      max 1 (2 * (AdvVector.Vec.mk [5] 1).cap) :=
  (C3_pushBack_growth (AdvVector.Vec.mk [5] 1) 0 7 rfl).2.1

/-- C5: move assignment `a = move(b)` swaps the two states wholesale —
afterwards `a` holds exactly `b`'s previous elements, size and capacity and
`b` holds `a`'s, rather than `b` being cleared. -/
theorem C5_moveAssign_swap (α : Type) (a b : AdvVector.Vec α) :
    (AdvVector.Vec.moveAssign a b).1 = b ∧
    (AdvVector.Vec.moveAssign a b).2 = a :=
  ⟨rfl, rfl⟩

/-- C7: `Reserve(n)` is a no-op when `n ≤ Capacity()`; otherwise it sets the
capacity to exactly `n` and leaves the element sequence (hence the size)
unchanged; it is idempotent; and the relocation uses move construction iff
the element type is nothrow-move-constructible or not copy-constructible,
copy construction otherwise. -/
theorem C7_reserve (α : Type) (v : AdvVector.Vec α) (n : Nat) :
    (n ≤ v.cap → AdvVector.Vec.reserve v n = v) ∧
    (v.cap < n →
      (AdvVector.Vec.reserve v n).cap = n ∧
      (AdvVector.Vec.reserve v n).elems = v.elems) ∧
    AdvVector.Vec.reserve (AdvVector.Vec.reserve v n) n =
      AdvVector.Vec.reserve v n ∧
    (∀ nothrowMove copyConstructible : Bool,
      AdvVector.relocUsesMove nothrowMove copyConstructible = true ↔
        (nothrowMove = true ∨ copyConstructible = false)) := by
  refine ⟨?_, ?_, ?_, ?_⟩
  · intro h; simp [AdvVector.Vec.reserve, h]
  · intro h
    have h1 : ¬ n ≤ v.cap := by omega
    simp [AdvVector.Vec.reserve, h1]
  · by_cases h : n ≤ v.cap <;> simp [AdvVector.Vec.reserve, h]
  · intro nm cc
    cases nm <;> cases cc <;> simp [AdvVector.relocUsesMove]

/-- Witness for C7 at the vector `⟨[1], 1⟩` with n = 1 (no-op case) and
n = 3 (growth case). -/
theorem C7_reserve_witness :
    AdvVector.Vec.reserve (AdvVector.Vec.mk ([1] : List Nat) 1) 1 =
      AdvVector.Vec.mk [1] 1 ∧
    (AdvVector.Vec.reserve (AdvVector.Vec.mk ([1] : List Nat) 1) 3).cap = 3 ∧
    (AdvVector.Vec.reserve (AdvVector.Vec.mk ([1] : List Nat) 1) 3).elems =
      [1] :=
  ⟨(C7_reserve Nat (AdvVector.Vec.mk [1] 1) 1).1 (by decide),
   ((C7_reserve Nat (AdvVector.Vec.mk [1] 1) 3).2.1 (by decide)).1,
   ((C7_reserve Nat (AdvVector.Vec.mk [1] 1) 3).2.1 (by decide)).2⟩

/-- C4: every `Vector` operation preserves the size-within-capacity
invariant `size_ ≤ Capacity()` (in this embedding slots `[0, size_)` hold
exactly the constructed elements — the list `elems` — and slots
`[size_, Capacity())` are uninitialized and carry no value).  All
constructors establish the invariant and every operation preserves it,
under the operations' documented preconditions (`off ≤ size_` for
`Emplace`/`Insert`/`Erase` positions within the array). -/
theorem C4_invariant (α : Type) [Inhabited α] (v w : AdvVector.Vec α)
    (n off : Nat) (x : α) (hv : v.WF) (hw : w.WF)
    (hoff : off ≤ v.elems.length) :
    (AdvVector.Vec.mkEmpty : AdvVector.Vec α).WF ∧
    (AdvVector.Vec.mkSized n : AdvVector.Vec α).WF ∧
    (AdvVector.Vec.copyCtor v).WF ∧
    (AdvVector.Vec.moveCtor v).1.WF ∧
    (AdvVector.Vec.moveCtor v).2.WF ∧
    (AdvVector.Vec.swapOp v w).1.WF ∧
    (AdvVector.Vec.swapOp v w).2.WF ∧
    (AdvVector.Vec.moveAssign v w).1.WF ∧
    (AdvVector.Vec.moveAssign v w).2.WF ∧
    (AdvVector.Vec.copyAssign v w).WF ∧
    (AdvVector.Vec.reserve v n).WF ∧
    (AdvVector.Vec.resize v n).WF ∧
    (AdvVector.Vec.popBack v).WF ∧
    (AdvVector.Vec.emplace v off x).1.WF ∧
    (AdvVector.Vec.emplaceBack v x).1.WF ∧
    (AdvVector.Vec.pushBack v x).WF ∧
    (AdvVector.Vec.erase v off).1.WF ∧
    (AdvVector.Vec.insert v off x).1.WF := by
  have hvn : v.elems.length ≤ v.cap := hv
  have hwn : w.elems.length ≤ w.cap := hw
  have hemp : ∀ o : Nat, o ≤ v.elems.length →
      (AdvVector.Vec.emplace v o x).1.WF := by
    intro o ho
    unfold AdvVector.Vec.WF
    rw [AdvVector.Vec.emplace_length v o x ho, AdvVector.Vec.emplace_cap v o x]
    split_ifs with h <;> omega
  refine ⟨by simp [AdvVector.Vec.WF, AdvVector.Vec.mkEmpty],
    by simp [AdvVector.Vec.WF, AdvVector.Vec.mkSized],
    by simp [AdvVector.Vec.WF, AdvVector.Vec.copyCtor],
    hv,
    by simp [AdvVector.Vec.WF, AdvVector.Vec.moveCtor],
    hw, hv, hw, hv,
    ?_, ?_, ?_, ?_,
    hemp off hoff, hemp v.elems.length le_rfl, hemp v.elems.length le_rfl,
    ?_, hemp off hoff⟩
  · unfold AdvVector.Vec.WF AdvVector.Vec.copyAssign AdvVector.Vec.copyCtor
    split_ifs <;> first
      | (simp_all; omega)
      | simp_all
  · unfold AdvVector.Vec.WF AdvVector.Vec.reserve
    split_ifs with h
    · exact hv
    · simpa using by omega
  · unfold AdvVector.Vec.WF AdvVector.Vec.resize AdvVector.Vec.reserve
    split_ifs <;> simp_all <;> omega
  · unfold AdvVector.Vec.WF AdvVector.Vec.popBack
    simp
    omega
  · unfold AdvVector.Vec.WF AdvVector.Vec.erase
    simp
    omega

/-- Witness for C4 at the vector `⟨[1, 2], 3⟩`, second vector `⟨[], 0⟩`,
n = 2, offset 1, value 9; the extracted conjunct is the invariant after
`Emplace` at offset 1. -/
theorem C4_invariant_witness :
    (AdvVector.Vec.emplace (AdvVector.Vec.mk [1, 2] 3) 1 9).1.WF :=
  (C4_invariant Nat (AdvVector.Vec.mk [1, 2] 3) (AdvVector.Vec.mk [] 0) 2 1 9
      (by decide) (by decide)
      (by decide)).2.2.2.2.2.2.2.2.2.2.2.2.2.1

/-- C6: copy assignment makes the destination's elements equal the source's
element-wise (hence also the sizes); when the source does not fit into the
destination's capacity, a full copy — with capacity equal to the source's
size — is swapped in, otherwise the destination's buffer, and hence its
capacity, is reused.  Mutation independence is definitional in this
embedding: the resulting value shares no storage with the source. -/
theorem C6_copyAssign (α : Type) (a b : AdvVector.Vec α) :
    (AdvVector.Vec.copyAssign a b).elems = b.elems ∧
    (b.elems.length > a.cap →
      AdvVector.Vec.copyAssign a b = AdvVector.Vec.copyCtor b) ∧
    (b.elems.length ≤ a.cap →
      (AdvVector.Vec.copyAssign a b).cap = a.cap) := by
  refine ⟨?_, ?_, ?_⟩
  · unfold AdvVector.Vec.copyAssign AdvVector.Vec.copyCtor
    split_ifs with h1 h2
    · rfl
    · simp only []
      rw [Nat.min_eq_left (Nat.le_of_lt h2)]
      exact List.take_append_drop a.elems.length b.elems
    · simp only []
      rw [Nat.min_eq_right (by omega)]
      exact List.take_length b.elems
  · intro h
    unfold AdvVector.Vec.copyAssign
    rw [if_pos h]
  · intro h
    have h1 : ¬ b.elems.length > a.cap := by omega
    unfold AdvVector.Vec.copyAssign
    rw [if_neg h1]

/-- Witness for C6: full-copy case at `a = ⟨[1, 2], 2⟩`, `b = ⟨[7, 8, 9], 3⟩`
and reuse case at `a = ⟨[1, 2, 3], 5⟩`, `b = ⟨[7], 1⟩`. -/
theorem C6_copyAssign_witness :
    AdvVector.Vec.copyAssign (AdvVector.Vec.mk [1, 2] 2)
        (AdvVector.Vec.mk [7, 8, 9] 3) =
      AdvVector.Vec.copyCtor (AdvVector.Vec.mk [7, 8, 9] 3) ∧
    (AdvVector.Vec.copyAssign (AdvVector.Vec.mk [1, 2, 3] 5)
        (AdvVector.Vec.mk [7] 1)).cap = 5 :=
  ⟨(C6_copyAssign Nat (AdvVector.Vec.mk [1, 2] 2)
      (AdvVector.Vec.mk [7, 8, 9] 3)).2.1 (by decide),
   (C6_copyAssign Nat (AdvVector.Vec.mk [1, 2, 3] 5)
      (AdvVector.Vec.mk [7] 1)).2.2 (by decide)⟩

/-- C8: `Resize(n)` with `n ≤ Size()` keeps the first `n` elements and the
capacity and sets the size to `n`, destroying the trailing `Size() - n`
elements; with `n > Size()` it reserves `n`, default-constructs the added
`[Size(), n)` range and sets the size to `n`, keeping the original
elements' values as the prefix. -/
theorem C8_resize (α : Type) [Inhabited α] (v : AdvVector.Vec α) (n : Nat) :
    (n ≤ v.elems.length →
      (AdvVector.Vec.resize v n).elems = v.elems.take n ∧
      (AdvVector.Vec.resize v n).elems.length = n ∧
      (AdvVector.Vec.resize v n).cap = v.cap) ∧
    (v.elems.length < n →
      (AdvVector.Vec.resize v n).elems =
        v.elems ++ List.replicate (n - v.elems.length) default ∧
      (AdvVector.Vec.resize v n).elems.length = n ∧
      (AdvVector.Vec.resize v n).cap = (AdvVector.Vec.reserve v n).cap) := by
  constructor
  · intro h
    unfold AdvVector.Vec.resize
    rw [if_pos h]
    refine ⟨rfl, ?_, rfl⟩
    simp
    omega
  · intro h
    have h1 : ¬ v.elems.length ≥ n := by omega
    have hre : (AdvVector.Vec.reserve v n).elems = v.elems := by
      unfold AdvVector.Vec.reserve
      split_ifs <;> rfl
    unfold AdvVector.Vec.resize
    rw [if_neg h1]
    refine ⟨by rw [hre], ?_, rfl⟩
    rw [hre]
    simp
    omega

/-- Witness for C8 at `⟨[1, 2, 3], 4⟩` with n = 1 (shrink) and n = 6
(grow). -/
theorem C8_resize_witness :
    (AdvVector.Vec.resize (AdvVector.Vec.mk [1, 2, 3] 4) 1).elems =
      ([1, 2, 3] : List Nat).take 1 ∧
    (AdvVector.Vec.resize (AdvVector.Vec.mk [1, 2, 3] 4) 6).elems =
      [1, 2, 3] ++ List.replicate (6 - ([1, 2, 3] : List Nat).length)
        default :=
  ⟨((C8_resize Nat (AdvVector.Vec.mk [1, 2, 3] 4) 1).1 (by decide)).1,
   ((C8_resize Nat (AdvVector.Vec.mk [1, 2, 3] 4) 6).2 (by decide)).1⟩

/-- C9: for a position `p < Size()` of a well-formed vector, `Erase(p)`
followed by `Insert(p, x)` restores the original size and capacity and
yields the original element sequence with the element at `p` replaced by
`x`. -/
theorem C9_erase_insert (α : Type) (v : AdvVector.Vec α) (p : Nat) (x : α)
    (hp : p < v.elems.length) (hv : v.WF) :
    (AdvVector.Vec.insert (AdvVector.Vec.erase v p).1 p x).1.elems =
      v.elems.set p x ∧
    (AdvVector.Vec.insert (AdvVector.Vec.erase v p).1 p x).1.elems.length =
      v.elems.length ∧
    (AdvVector.Vec.insert (AdvVector.Vec.erase v p).1 p x).1.cap = v.cap := by
  have hvn : v.elems.length ≤ v.cap := hv
  have he_elems : (AdvVector.Vec.erase v p).1.elems =
      v.elems.take p ++ v.elems.drop (p + 1) := rfl
  have htklen : (v.elems.take p).length = p := by simp; omega
  have he_len : (AdvVector.Vec.erase v p).1.elems.length =
      v.elems.length - 1 := by
    rw [he_elems]; simp; omega
  have hple : p ≤ (AdvVector.Vec.erase v p).1.elems.length := by omega
  have htake : (AdvVector.Vec.erase v p).1.elems.take p = v.elems.take p := by
    rw [he_elems]; exact List.take_left' htklen
  have hdrop : (AdvVector.Vec.erase v p).1.elems.drop p =
      v.elems.drop (p + 1) := by
    rw [he_elems]; exact List.drop_left' htklen
  simp only [AdvVector.Vec.insert]
  refine ⟨?_, ?_, ?_⟩
  · rw [AdvVector.Vec.emplace_elems _ p x hple, htake, hdrop,
      List.set_eq_take_cons_drop x hp]
  · rw [AdvVector.Vec.emplace_length _ p x hple, he_len]
    omega
  · rw [AdvVector.Vec.emplace_cap]
    have hcap : (AdvVector.Vec.erase v p).1.cap = v.cap := rfl
    rw [if_neg (by rw [he_len, hcap]; omega), hcap]

/-- Witness for C9 at `⟨[1, 2, 3], 4⟩`, position 1, value 9. -/
theorem C9_erase_insert_witness :
    (AdvVector.Vec.insert
        (AdvVector.Vec.erase (AdvVector.Vec.mk [1, 2, 3] 4) 1).1 1 9).1.elems =
      ([1, 2, 3] : List Nat).set 1 9 ∧
    (AdvVector.Vec.insert
        (AdvVector.Vec.erase (AdvVector.Vec.mk [1, 2, 3] 4) 1).1
        1 9).1.elems.length = ([1, 2, 3] : List Nat).length ∧
    (AdvVector.Vec.insert
        (AdvVector.Vec.erase (AdvVector.Vec.mk [1, 2, 3] 4) 1).1 1 9).1.cap =
      4 :=
  C9_erase_insert Nat (AdvVector.Vec.mk [1, 2, 3] 4) 1 9 (by decide)
    (by decide)

/-- C10: `Emplace` and `Insert` return the iterator `begin() + off` and the
slot at that offset holds the newly inserted element; `Erase` returns the
iterator to the erased slot, which afterwards holds the element that
followed it (`none`, i.e. `end()`, when the last element was erased);
`EmplaceBack` returns a reference to the newly appended last element. -/
theorem C10_returned_positions (α : Type) (v : AdvVector.Vec α)
    (off p : Nat) (x : α) (hoff : off ≤ v.elems.length)
    (hp : p < v.elems.length) :
    (AdvVector.Vec.emplace v off x).2 = off ∧
    (AdvVector.Vec.insert v off x).2 = off ∧
    (AdvVector.Vec.emplace v off x).1.elems[off]? = some x ∧
    (AdvVector.Vec.erase v p).2 = p ∧
    (AdvVector.Vec.erase v p).1.elems[p]? = v.elems[p + 1]? ∧
    (AdvVector.Vec.emplaceBack v x).2 = v.elems.length ∧
    (AdvVector.Vec.emplaceBack v x).1.elems.length = v.elems.length + 1 ∧
    (AdvVector.Vec.emplaceBack v x).1.elems[v.elems.length]? = some x := by
  have key : ∀ o : Nat, o ≤ v.elems.length →
      (AdvVector.Vec.emplace v o x).1.elems[o]? = some x := by
    intro o ho
    have h1 : (v.elems.take o).length = o := by simp; omega
    rw [AdvVector.Vec.emplace_elems v o x ho,
      List.getElem?_append_right (by omega), h1]
    simp
  refine ⟨AdvVector.Vec.emplace_snd v off x, AdvVector.Vec.emplace_snd v off x,
    key off hoff, rfl, ?_, AdvVector.Vec.emplace_snd v v.elems.length x,
    AdvVector.Vec.emplace_length v v.elems.length x le_rfl,
    key v.elems.length le_rfl⟩
  have htklen : (v.elems.take p).length = p := by simp; omega
  show (v.elems.take p ++ v.elems.drop (p + 1))[p]? = v.elems[p + 1]?
  rw [List.getElem?_append_right (by omega), htklen, Nat.sub_self,
    List.getElem?_drop]

/-- Witness for C10 at `⟨[1, 2, 3], 4⟩`, insertion offset 1, erase position
2 (the last element, so the returned erase iterator is `end()`), value 9. -/
theorem C10_returned_positions_witness :
    (AdvVector.Vec.emplace (AdvVector.Vec.mk [1, 2, 3] 4) 1 9).2 = 1 ∧
    (AdvVector.Vec.insert (AdvVector.Vec.mk [1, 2, 3] 4) 1 9).2 = 1 ∧
    (AdvVector.Vec.emplace (AdvVector.Vec.mk [1, 2, 3] 4) 1 9).1.elems[1]? =
      some 9 ∧
    (AdvVector.Vec.erase (AdvVector.Vec.mk [1, 2, 3] 4) 2).2 = 2 ∧
    (AdvVector.Vec.erase (AdvVector.Vec.mk [1, 2, 3] 4) 2).1.elems[2]? =
      ([1, 2, 3] : List Nat)[2 + 1]? ∧
    (AdvVector.Vec.emplaceBack (AdvVector.Vec.mk [1, 2, 3] 4) 9).2 =
      ([1, 2, 3] : List Nat).length ∧
    (AdvVector.Vec.emplaceBack
        (AdvVector.Vec.mk [1, 2, 3] 4) 9).1.elems.length =
      ([1, 2, 3] : List Nat).length + 1 ∧
    (AdvVector.Vec.emplaceBack
        (AdvVector.Vec.mk [1, 2, 3] 4)
        9).1.elems[([1, 2, 3] : List Nat).length]? = some 9 :=
  C10_returned_positions Nat (AdvVector.Vec.mk [1, 2, 3] 4) 1 2 9
    (by decide) (by decide)

end AdvVector
